import Mathlib

/-
Verification of the storage-abstraction and command-dispatch core of the
kvserver repository (Rust).  The Rust code is shallowly embedded: every
operation that mutates a backend through interior mutability is modelled as
a pure function returning both its result and the successor state, and
fallible operations return `Except KvError`.  Unless a doc comment says
otherwise, each definition is a direct translation of the function of the
same name in the Rust source.
-/

set_option autoImplicit false

namespace KvServer

/-- Modelled from the spec: the serializable scalar payload type `Value`
(src does not contain its definition, only its uses).  The spec describes it
as "an opaque, serializable scalar payload (e.g., string/bytes/number
variant)"; a string variant and an integer variant suffice for this
development. -/
inductive Value where
  | vstring (s : String)
  | vint (n : Int)
  deriving DecidableEq

/-- Modelled from the spec: `Value::default()` used by the Hset handler; the
spec only requires some fixed default payload. -/
def Value.default : Value := Value.vstring ""

/-- Modelled from the spec: `Kvpair` is "an owned pair (key: string, value:
Value)" (its Rust definition lives in the protobuf-generated code, not in
src). -/
structure Kvpair where
  key : String
  value : Value
  deriving DecidableEq

/-- Translation of `Kvpair::new(key, value)`. -/
def Kvpair.new (key : String) (value : Value) : Kvpair := ⟨key, value⟩

/-- Translation of `impl From<(String, Value)> for Kvpair` in
src/storage/memory.rs. -/
def Kvpair.ofProd (p : String × Value) : Kvpair := Kvpair.new p.1 p.2

/-- Modelled from the spec: the error type `KvError` (only the variants
`InvalidCommand` and `Internal` appear in src; `NotFound` and the
storage-fault variant are from the spec's error taxonomy in section 7). -/
inductive KvError where
  | invalidCommand (msg : String)
  | internal (msg : String)
  | notFound (msg : String)
  | storageFault (msg : String)
  deriving DecidableEq

/- ----------------------------------------------------------------
Association-list primitives.  They model the maps used by the two
backends: `DashMap` (MemTable) and sled's key space (SledDb).  Lookup,
insert and remove all act on the first occurrence of a key, which agrees
with a map that keeps keys unique.
---------------------------------------------------------------- -/

/-- Lookup in an association list (models `DashMap::get` / map lookup). -/
def alookup {α : Type} : List (String × α) → String → Option α
  | [], _ => none
  | (k, v) :: rest, key => if k = key then some v else alookup rest key

/-- Insert-or-overwrite in an association list (models `DashMap::insert` /
`sled::Db::insert` state change; the previous value is read separately with
`alookup`). -/
def ainsert {α : Type} (key : String) (value : α) : List (String × α) → List (String × α)
  | [] => [(key, value)]
  | (k, v) :: rest => if k = key then (k, value) :: rest else (k, v) :: ainsert key value rest

/-- Removal from an association list (models `DashMap::remove`'s state
change). -/
def aremove {α : Type} (key : String) : List (String × α) → List (String × α)
  | [] => []
  | (k, v) :: rest => if k = key then rest else (k, v) :: aremove key rest

/- ----------------------------------------------------------------
MemTable backend (src/storage/memory.rs).  The Rust struct holds
`tables: DashMap<String, DashMap<String, Value>>`; every `&self` method
mutates through the DashMap's interior mutability, so here each operation
returns its result paired with the successor state.
---------------------------------------------------------------- -/

/-- State of the MemTable backend: the outer table-name map, each entry
holding the per-table key/value map. -/
structure MemTable where
  tables : List (String × List (String × Value))
  deriving DecidableEq

/-- Translation of `MemTable::new()` (`Self::default()`). -/
def MemTable.new : MemTable := ⟨[]⟩

/-- Translation of `MemTable::get_or_create_table`: return the named table's
contents, inserting an empty table first when the name is absent.  The
returned state has the table materialized, mirroring
`self.tables.entry(name.into()).or_default()`. -/
def MemTable.get_or_create_table (m : MemTable) (name : String) :
    List (String × Value) × MemTable :=
  match alookup m.tables name with
  | some tbl => (tbl, m)
  | none => ([], ⟨ainsert name [] m.tables⟩)

/-- Translation of `MemTable::get` (Storage impl): read through
`get_or_create_table`, then look the key up in the per-table map. -/
def MemTable.get (m : MemTable) (table key : String) :
    Except KvError (Option Value) × MemTable :=
  let p := m.get_or_create_table table
  (Except.ok (alookup p.1 key), p.2)

/-- Translation of `MemTable::set` (Storage impl): `table.insert(key, value)`
returns the previous value; the per-table map gains the new binding. -/
def MemTable.set (m : MemTable) (table key : String) (value : Value) :
    Except KvError (Option Value) × MemTable :=
  let p := m.get_or_create_table table
  (Except.ok (alookup p.1 key), ⟨ainsert table (ainsert key value p.1) p.2.tables⟩)

/-- Translation of `MemTable::contains` (Storage impl). -/
def MemTable.contains (m : MemTable) (table key : String) :
    Except KvError Bool × MemTable :=
  let p := m.get_or_create_table table
  (Except.ok (alookup p.1 key).isSome, p.2)

/-- Translation of `MemTable::del` (Storage impl): `table.remove(key)`
returns the removed pair, mapped to its value. -/
def MemTable.del (m : MemTable) (table key : String) :
    Except KvError (Option Value) × MemTable :=
  let p := m.get_or_create_table table
  (Except.ok (alookup p.1 key), ⟨ainsert table (aremove key p.1) p.2.tables⟩)

/-- Translation of `MemTable::get_all` (Storage impl): materialize every
pair of the table via `Kvpair::new`. -/
def MemTable.get_all (m : MemTable) (table : String) :
    Except KvError (List Kvpair) × MemTable :=
  let p := m.get_or_create_table table
  (Except.ok (p.1.map (fun q => Kvpair.new q.1 q.2)), p.2)

/-- Specification-level lookup: the value bound to `key` in `table`, `none`
when the table or the key is absent.  Used to state theorems; it performs no
state change. -/
def memLookup (m : MemTable) (table key : String) : Option Value :=
  match alookup m.tables table with
  | some tbl => alookup tbl key
  | none => none

/-- The list of table names present in a MemTable state. -/
def tableNames (m : MemTable) : List String := m.tables.map Prod.fst

/- ----------------------------------------------------------------
Cross-backend iterator adapter `StorageIter` (src/storage/mod.rs).  A Rust
iterator is modelled by the list of elements it has yet to yield; the
`Into<Kvpair>` conversion of the wrapped element type is passed as a
function.
---------------------------------------------------------------- -/

/-- State of a `StorageIter<T>`: the remaining elements of the wrapped
iterator. -/
structure StorageIter (α : Type) where
  data : List α

/-- Translation of `StorageIter::new(data)`. -/
def StorageIter.new {α : Type} (data : List α) : StorageIter α := ⟨data⟩

/-- Translation of `Iterator::next` for `StorageIter`:
`self.data.next().map(|v| v.into())`.  The Rust call mutates the iterator,
so the successor iterator is returned alongside the converted element. -/
def StorageIter.next {α : Type} (toKv : α → Kvpair) (it : StorageIter α) :
    Option (Kvpair × StorageIter α) :=
  match it.data with
  | [] => none
  | a :: rest => some (toKv a, ⟨rest⟩)

/-- Draining a `StorageIter` by repeated `next` calls (what `collect` does
on the Rust side). -/
def StorageIter.collect {α : Type} (toKv : α → Kvpair) : StorageIter α → List Kvpair
  | ⟨[]⟩ => []
  | ⟨a :: rest⟩ => toKv a :: StorageIter.collect toKv ⟨rest⟩

/-- Translation of `MemTable::get_iter` (Storage impl): clone the table's
contents (the snapshot) and wrap the clone's iterator in a `StorageIter`. -/
def MemTable.get_iter (m : MemTable) (table : String) :
    Except KvError (StorageIter (String × Value)) × MemTable :=
  let p := m.get_or_create_table table
  (Except.ok (StorageIter.new p.1), p.2)

/- ----------------------------------------------------------------
SledDb backend (src/storage/sleddb.rs).  The sled engine is modelled as a
flat association list from full keys to encoded byte strings; `Value`
encoding is modelled below.  `contains`, `del`, `get_all` and `get_iter`
are `todo!()` in the source, which panics; a panic is represented
explicitly by `PanicOr.panicked`.
---------------------------------------------------------------- -/

/-- Modelled from the spec: the alphabet of the engine's "raw byte
representation" of a `Value` (the concrete protobuf byte layout is not in
src; only its round-trip and can-fail-to-decode properties matter). -/
inductive Byte where
  | tagStr
  | tagInt
  | sym (c : Char)
  | sgn (b : Bool)
  | mag (n : Nat)
  deriving DecidableEq

/-- Modelled from the spec: serialization of a `Value` into engine bytes
(`TryInto<Vec<u8>>` in Rust); the spec's invariant is that values
"round-trip through the backend's on-disk encoding without loss". -/
def encode : Value → List Byte
  | Value.vstring s => Byte.tagStr :: s.data.map Byte.sym
  | Value.vint n => [Byte.tagInt, Byte.sgn (decide (n < 0)), Byte.mag n.natAbs]

/-- Helper for `decode`: recover a character list from encoded string
payload bytes, failing on any non-character byte. -/
def decodeChars : List Byte → Option (List Char)
  | [] => some []
  | Byte.sym c :: rest => (decodeChars rest).map (fun cs => c :: cs)
  | _ => none

/-- Modelled from the spec: deserialization of engine bytes back into a
`Value` (`TryInto<Value> for &[u8]` in Rust); fails on byte strings that are
not a valid encoding. -/
def decode : List Byte → Option Value
  | Byte.tagStr :: rest => (decodeChars rest).map (fun cs => Value.vstring ⟨cs⟩)
  | [Byte.tagInt, Byte.sgn b, Byte.mag n] =>
      some (Value.vint (if b then -(n : Int) else (n : Int)))
  | _ => none

/-- Deserialization as the fallible conversion the source applies to stored
bytes: a decode failure is a storage-kind error per the spec's section 7. -/
def decodeE (bs : List Byte) : Except KvError Value :=
  match decode bs with
  | some v => Except.ok v
  | none => Except.error (KvError.storageFault "invalid value encoding")

/-- State of the SledDb backend: the engine's flat ordered key space,
mapping full keys to stored byte strings. -/
structure SledDb where
  db : List (String × List Byte)
  deriving DecidableEq

/-- Translation of `SledDb::get_full_key(table, key)`:
`format!("{}:{}", table, key)` written without braces in this comment. -/
def SledDb.get_full_key (table key : String) : String :=
  table ++ ":" ++ key

/-- Translation of the source's `flip`: turn `Option<Result<T, E>>` into
`Result<Option<T>, E>`. -/
def flipOR {ε α : Type} : Option (Except ε α) → Except ε (Option α)
  | none => Except.ok none
  | some (Except.ok v) => Except.ok (some v)
  | some (Except.error e) => Except.error e

/-- Translation of `SledDb::get` (Storage impl): read the full key's bytes,
decode them fallibly, and flip the nested option/result. -/
def SledDb.get (s : SledDb) (table key : String) : Except KvError (Option Value) :=
  flipOR ((alookup s.db (SledDb.get_full_key table key)).map decodeE)

/-- Translation of `SledDb::set` (Storage impl): encode the value, insert it
under the full key (the engine returns the previously stored bytes), and
decode those previous bytes into the result. -/
def SledDb.set (s : SledDb) (table key : String) (value : Value) :
    Except KvError (Option Value) × SledDb :=
  let name := SledDb.get_full_key table key
  let data := encode value
  let old := alookup s.db name
  (flipOR (old.map decodeE), ⟨ainsert name data s.db⟩)

/-- Outcome of running a Rust function that may `panic!` (here: `todo!()`). -/
inductive PanicOr (α : Type) where
  | ok (a : α)
  | panicked (msg : String)
  deriving DecidableEq

/-- Translation of `SledDb::contains` (Storage impl): the body is `todo!()`,
which panics. -/
def SledDb.contains (_s : SledDb) (_table _key : String) :
    PanicOr (Except KvError Bool) :=
  PanicOr.panicked "not yet implemented"

/-- Translation of `SledDb::del` (Storage impl): the body is `todo!()`,
which panics. -/
def SledDb.del (_s : SledDb) (_table _key : String) :
    PanicOr (Except KvError (Option Value) × SledDb) :=
  PanicOr.panicked "not yet implemented"

/-- Translation of `SledDb::get_all` (Storage impl): the body is `todo!()`,
which panics. -/
def SledDb.get_all (_s : SledDb) (_table : String) :
    PanicOr (Except KvError (List Kvpair)) :=
  PanicOr.panicked "not yet implemented"

/-- Well-formed sled state: every stored byte string is a valid `Value`
encoding.  Every state reachable through `SledDb.set` satisfies this. -/
def SledWF (s : SledDb) : Prop :=
  ∀ p ∈ s.db, (decode p.2).isSome

instance (s : SledDb) : Decidable (SledWF s) := by
  unfold SledWF
  infer_instance

/-- Specification-level lookup for the sled backend: the decoded value
stored under the full key for `(table, key)`. -/
def sledLookup (s : SledDb) (table key : String) : Option Value :=
  (alookup s.db (SledDb.get_full_key table key)).bind decode

/- ----------------------------------------------------------------
Service layer (src/service/mod.rs).  The command/response message types and
the per-command handler bodies live outside src (protobuf-generated code and
service/command_service.rs); they are modelled from the spec.  The
`Service`/`ServiceInner` structure, `execute`, `dispatch` and the notify
machinery are translations of src/service/mod.rs, specialized to the
default store type `MemTable` (`pub struct Service<Store = MemTable>`).
---------------------------------------------------------------- -/

/-- Modelled from the spec: the `Hget` command payload (table, key). -/
structure Hget where
  table : String
  key : String
  deriving DecidableEq

/-- Modelled from the spec: the `Hgetall` command payload (table). -/
structure Hgetall where
  table : String
  deriving DecidableEq

/-- Modelled from the spec: the `Hset` command payload (table, pair). -/
structure Hset where
  table : String
  pair : Kvpair
  deriving DecidableEq

/-- Modelled from the spec: the `Hdel` command payload; it stands for the
spec's "additional kinds may exist and must map to the not-implemented
error path" — the source's dispatch has a catch-all arm for such
variants. -/
structure Hdel where
  table : String
  key : String
  deriving DecidableEq

/-- Modelled from the spec: the tagged union `RequestData` of command
payloads. -/
inductive RequestData where
  | Hget (v : Hget)
  | Hgetall (v : Hgetall)
  | Hset (v : Hset)
  | Hdel (v : Hdel)
  deriving DecidableEq

/-- Modelled from the spec: `CommandRequest`, a record whose `request_data`
is an optional tagged-union payload. -/
structure CommandRequest where
  request_data : Option RequestData
  deriving DecidableEq

/-- Modelled from the spec: `CommandResponse` — status code (200 = success),
message (empty on success), values and pairs. -/
structure CommandResponse where
  status : Nat
  message : String
  values : List Value
  pairs : List Kvpair
  deriving DecidableEq

/-- Modelled from the spec: `impl From<KvError> for CommandResponse` — every
error becomes a well-formed error response with a non-success status, the
error's message, and empty values/pairs (spec sections 6 and 7; the concrete
non-200 codes are representative caller-defined codes). -/
def KvError.toResponse : KvError → CommandResponse
  | KvError.invalidCommand msg => ⟨400, msg, [], []⟩
  | KvError.internal msg => ⟨500, msg, [], []⟩
  | KvError.notFound msg => ⟨404, msg, [], []⟩
  | KvError.storageFault msg => ⟨503, msg, [], []⟩

/-- Modelled from the spec: the `CommandService` handler for `Hget` — a
mechanical translation of `get` onto the Storage contract: a found value is
returned as the single element of `values` with status 200, a missing value
is a not-found error response. -/
def Hget.execute (v : Hget) (store : MemTable) : CommandResponse × MemTable :=
  let p := MemTable.get store v.table v.key
  match p.1 with
  | Except.ok (some value) => (⟨200, "", [value], []⟩, p.2)
  | Except.ok none => ((KvError.notFound "Not found").toResponse, p.2)
  | Except.error e => (e.toResponse, p.2)

/-- Modelled from the spec: the `CommandService` handler for `Hgetall` — the
table's pairs are returned in `pairs` with status 200. -/
def Hgetall.execute (v : Hgetall) (store : MemTable) : CommandResponse × MemTable :=
  let p := MemTable.get_all store v.table
  match p.1 with
  | Except.ok pairs => (⟨200, "", [], pairs⟩, p.2)
  | Except.error e => (e.toResponse, p.2)

/-- Modelled from the spec: the `CommandService` handler for `Hset` — the
previous value (or the default value when none existed) is returned as the
single element of `values` with status 200, as the repository's own service
test expects. -/
def Hset.execute (v : Hset) (store : MemTable) : CommandResponse × MemTable :=
  let p := MemTable.set store v.table v.pair.key v.pair.value
  match p.1 with
  | Except.ok old => (⟨200, "", [old.getD Value.default], []⟩, p.2)
  | Except.error e => (e.toResponse, p.2)

/-- Translation of `dispatch` in src/service/mod.rs: match on the request's
payload; `None` yields `KvError::InvalidCommand("Request has no data")`, any
variant not wired in yields `KvError::Internal("Not implemented")`.  The
store's successor state is returned because the handlers mutate it through
interior mutability in Rust. -/
def dispatch (cmd : CommandRequest) (store : MemTable) : CommandResponse × MemTable :=
  match cmd.request_data with
  | some (RequestData.Hget v) => v.execute store
  | some (RequestData.Hgetall v) => v.execute store
  | some (RequestData.Hset v) => v.execute store
  | none => ((KvError.invalidCommand "Request has no data").toResponse, store)
  | some (RequestData.Hdel _) => ((KvError.internal "Not implemented").toResponse, store)

/-- Translation of `ServiceInner<Store>` for the default `Store = MemTable`:
the owned store plus the four ordered hook lists.  The immutable hooks
(`on_received`, `on_executed`, `on_after_send`) are side-effect-only in Rust
(logging); in a pure model their invocation has no observable effect, so
their element type is a function into `Unit`. -/
structure ServiceInner where
  store : MemTable
  on_received : List (CommandRequest → Unit)
  on_executed : List (CommandResponse → Unit)
  on_before_send : List (CommandResponse → CommandResponse)
  on_after_send : List (Unit → Unit)

/-- Translation of `ServiceInner::new(store)`: empty hook lists. -/
def ServiceInner.new (store : MemTable) : ServiceInner :=
  ⟨store, [], [], [], []⟩

/-- Translation of `ServiceInner::fn_before_send`: push one mutable
before-send hook (registration appends to the list). -/
def ServiceInner.fn_before_send (s : ServiceInner)
    (f : CommandResponse → CommandResponse) : ServiceInner :=
  ⟨s.store, s.on_received, s.on_executed, s.on_before_send ++ [f], s.on_after_send⟩

/-- Registering a whole list of before-send hooks one by one, in order,
through `fn_before_send` (the builder chain in the source's tests). -/
def registerBeforeSend (s : ServiceInner) (fs : List (CommandResponse → CommandResponse)) :
    ServiceInner :=
  fs.foldl (fun acc f => acc.fn_before_send f) s

/-- Translation of `Service<Store = MemTable>`: a handle wrapping the inner
state (the `Arc` sharing is invisible in a pure state-passing model). -/
structure Service where
  inner : ServiceInner

/-- Translation of `impl From<ServiceInner> for Service`. -/
def Service.ofInner (inner : ServiceInner) : Service := ⟨inner⟩

/-- Translation of `NotifyMut for Vec<fn(&mut Arg)>`: run every hook on the
argument in list order (`for f in self { f(arg) }`), each later hook seeing
the earlier hooks' mutations. -/
def notifyMut (fs : List (CommandResponse → CommandResponse))
    (arg : CommandResponse) : CommandResponse :=
  fs.foldl (fun acc f => f acc) arg

/-- Translation of `Service::execute`: dispatch the command against the
store, then run the `on_before_send` hooks mutably over the response and
return it.  The immutable `on_received`/`on_executed` notifications are
side-effect-only and leave no trace in a pure model.  The store's successor
state is returned alongside the response. -/
def Service.execute (svc : Service) (cmd : CommandRequest) :
    CommandResponse × MemTable :=
  let p := dispatch cmd svc.inner.store
  (notifyMut svc.inner.on_before_send p.1, p.2)

/-- A before-send hook that overwrites the response status with `k` (the
shape of hook used by the repository's own hook-ordering test). -/
def setStatusHook (k : Nat) : CommandResponse → CommandResponse :=
  fun r => ⟨k, r.message, r.values, r.pairs⟩

/- ----------------------------------------------------------------
Scenario definitions used to state the iterator-snapshot and
get_all/get_iter claims.
---------------------------------------------------------------- -/

/-- The contents of `table` in state `m` (empty when the table is absent),
the snapshot `get_iter` clones. -/
def memSnapshot (m : MemTable) (table : String) : List (String × Value) :=
  (alookup m.tables table).getD []

/-- Scenario: obtain an iterator over `table`, then `set (key, value)` in
that same table, then drain the previously obtained iterator.  The drained
pairs and the post-mutation state are returned. -/
def iterThenSet (m : MemTable) (table key : String) (value : Value) :
    Except KvError (List Kvpair) × MemTable :=
  let pIt := m.get_iter table
  let pSet := MemTable.set pIt.2 table key value
  (Except.map (StorageIter.collect Kvpair.ofProd) pIt.1, pSet.2)

/-- Scenario: obtain an iterator over `table`, then `del key` in that same
table, then drain the previously obtained iterator. -/
def iterThenDel (m : MemTable) (table key : String) :
    Except KvError (List Kvpair) × MemTable :=
  let pIt := m.get_iter table
  let pDel := MemTable.del pIt.2 table key
  (Except.map (StorageIter.collect Kvpair.ofProd) pIt.1, pDel.2)

/-- Scenario: obtain an iterator over `table` and drain it with no
intervening mutation. -/
def iterNoMut (m : MemTable) (table : String) : Except KvError (List Kvpair) :=
  Except.map (StorageIter.collect Kvpair.ofProd) (m.get_iter table).1

/- ----------------------------------------------------------------
Helper lemmas.
---------------------------------------------------------------- -/

theorem alookup_ainsert_self {α : Type} (k : String) (v : α)
    (l : List (String × α)) : alookup (ainsert k v l) k = some v := by
  induction l with
  | nil => simp [ainsert, alookup]
  | cons p rest ih =>
      obtain ⟨a, b⟩ := p
      by_cases h : a = k
      · simp [ainsert, alookup, h]
      · simp [ainsert, alookup, h, ih]

theorem alookup_ainsert_ne {α : Type} {k k' : String} (h : k' ≠ k) (v : α)
    (l : List (String × α)) : alookup (ainsert k v l) k' = alookup l k' := by
  induction l with
  | nil => simp [ainsert, alookup, Ne.symm h]
  | cons p rest ih =>
      obtain ⟨a, b⟩ := p
      by_cases ha : a = k
      · subst ha
        simp [ainsert, alookup, Ne.symm h]
      · simp [ainsert, alookup, ha, ih]

theorem alookup_mem {α : Type} {l : List (String × α)} {k : String} {v : α}
    (h : alookup l k = some v) : (k, v) ∈ l := by
  induction l with
  | nil => simp [alookup] at h
  | cons p rest ih =>
      obtain ⟨a, b⟩ := p
      by_cases ha : a = k
      · subst ha
        simp [alookup] at h
        simp [h]
      · simp [alookup, ha] at h
        exact List.mem_cons_of_mem _ (ih h)

theorem get_or_create_fst (m : MemTable) (t : String) :
    (m.get_or_create_table t).1 = (alookup m.tables t).getD [] := by
  unfold MemTable.get_or_create_table
  cases h : alookup m.tables t <;> simp [h]

theorem mem_get_val (m : MemTable) (t k : String) :
    (MemTable.get m t k).1 = Except.ok (memLookup m t k) := by
  unfold MemTable.get MemTable.get_or_create_table memLookup
  cases h : alookup m.tables t <;> simp [h, alookup]

theorem mem_set_val (m : MemTable) (t k : String) (v : Value) :
    (MemTable.set m t k v).1 = Except.ok (memLookup m t k) := by
  unfold MemTable.set MemTable.get_or_create_table memLookup
  cases h : alookup m.tables t <;> simp [h, alookup]

theorem memLookup_mk_ainsert (tables : List (String × List (String × Value)))
    (t : String) (tbl : List (String × Value)) (t' k' : String) :
    memLookup ⟨ainsert t tbl tables⟩ t' k'
      = if t' = t then alookup tbl k' else memLookup ⟨tables⟩ t' k' := by
  unfold memLookup
  by_cases h : t' = t
  · subst h
    rw [alookup_ainsert_self]
    simp
  · rw [alookup_ainsert_ne h]
    simp [h]

theorem mem_set_state (m : MemTable) (t k : String) (v : Value) :
    (MemTable.set m t k v).2
      = ⟨ainsert t (ainsert k v (m.get_or_create_table t).1)
          (m.get_or_create_table t).2.tables⟩ := by
  rfl

theorem memLookup_set_self (m : MemTable) (t k : String) (v : Value) :
    memLookup (MemTable.set m t k v).2 t k = some v := by
  rw [mem_set_state, memLookup_mk_ainsert]
  simp [alookup_ainsert_self]

theorem memLookup_set_frame (m : MemTable) (t k : String) (v : Value)
    (t' k' : String) (h : t' ≠ t ∨ k' ≠ k) :
    memLookup (MemTable.set m t k v).2 t' k' = memLookup m t' k' := by
  rw [mem_set_state, memLookup_mk_ainsert]
  by_cases ht : t' = t
  · subst ht
    have hk : k' ≠ k := h.resolve_left (by simp)
    rw [if_pos rfl, alookup_ainsert_ne hk]
    unfold MemTable.get_or_create_table memLookup
    cases hT : alookup m.tables t' <;> simp [hT, alookup]
  · rw [if_neg ht]
    unfold MemTable.get_or_create_table
    cases hT : alookup m.tables t
    · simp only [hT]
      rw [memLookup_mk_ainsert, if_neg ht]
    · simp only [hT]

theorem memLookup_get_state (m : MemTable) (t k : String) (t' k' : String) :
    memLookup (MemTable.get m t k).2 t' k' = memLookup m t' k' := by
  unfold MemTable.get MemTable.get_or_create_table
  cases hT : alookup m.tables t
  · simp only [hT]
    rw [memLookup_mk_ainsert]
    by_cases ht : t' = t
    · subst ht
      simp [alookup, memLookup, hT]
    · simp [ht]
  · simp only [hT]

theorem mem_get_materializes (m : MemTable) (t k : String) :
    (alookup (MemTable.get m t k).2.tables t).isSome := by
  unfold MemTable.get MemTable.get_or_create_table
  cases hT : alookup m.tables t <;> simp [hT, alookup_ainsert_self]

theorem mem_set_materializes (m : MemTable) (t k : String) (v : Value) :
    (alookup (MemTable.set m t k v).2.tables t).isSome := by
  rw [mem_set_state]
  simp [alookup_ainsert_self]

theorem collect_eq_map {α : Type} (toKv : α → Kvpair) (l : List α) :
    StorageIter.collect toKv (StorageIter.new l) = l.map toKv := by
  induction l with
  | nil => simp [StorageIter.collect, StorageIter.new]
  | cons a rest ih =>
      simpa [StorageIter.collect, StorageIter.new] using ih

theorem decodeChars_map_sym (cs : List Char) :
    decodeChars (cs.map Byte.sym) = some cs := by
  induction cs with
  | nil => rfl
  | cons c rest ih => simp [decodeChars, ih]

theorem decode_encode (v : Value) : decode (encode v) = some v := by
  cases v with
  | vstring s =>
      cases s with
      | mk cs => simp [encode, decode, decodeChars_map_sym]
  | vint n =>
      by_cases h : n < 0
      · have h1 : ((n.natAbs : Int)) = -n :=
          Int.ofNat_natAbs_of_nonpos (le_of_lt h)
        simp [encode, decode, h, h1]
      · have h1 : ((n.natAbs : Int)) = n :=
          Int.natAbs_of_nonneg (le_of_not_lt h)
        simp [encode, decode, h, h1]

theorem sled_set_val (s : SledDb) (t k : String) (v : Value)
    (hwf : SledWF s) :
    (SledDb.set s t k v).1 = Except.ok (sledLookup s t k) := by
  unfold SledDb.set sledLookup
  cases h : alookup s.db (SledDb.get_full_key t k) with
  | none => simp [h, flipOR]
  | some bs =>
      have hd : (decode bs).isSome := hwf (SledDb.get_full_key t k, bs) (alookup_mem h)
      obtain ⟨w, hw⟩ := Option.isSome_iff_exists.mp hd
      simp [h, flipOR, decodeE, hw]

theorem sledLookup_isSome (s : SledDb) (t k : String) (hwf : SledWF s) :
    (sledLookup s t k).isSome
      = (alookup s.db (SledDb.get_full_key t k)).isSome := by
  unfold sledLookup
  cases h : alookup s.db (SledDb.get_full_key t k) with
  | none => rfl
  | some bs =>
      have hd : (decode bs).isSome := hwf (SledDb.get_full_key t k, bs) (alookup_mem h)
      simp [hd]

theorem sled_get_after_set (s : SledDb) (t k : String) (v : Value) :
    SledDb.get (SledDb.set s t k v).2 t k = Except.ok (some v) := by
  unfold SledDb.get SledDb.set
  simp [alookup_ainsert_self, decodeE, decode_encode, flipOR]

theorem notifyMut_append (fs : List (CommandResponse → CommandResponse))
    (g : CommandResponse → CommandResponse) (r : CommandResponse) :
    notifyMut (fs ++ [g]) r = g (notifyMut fs r) := by
  simp [notifyMut, List.foldl_append]

theorem registerBeforeSend_hooks (s : ServiceInner)
    (fs : List (CommandResponse → CommandResponse)) :
    (registerBeforeSend s fs).on_before_send = s.on_before_send ++ fs := by
  induction fs generalizing s with
  | nil => simp [registerBeforeSend]
  | cons f rest ih =>
      simp [registerBeforeSend] at ih ⊢
      rw [ih]
      simp [ServiceInner.fn_before_send]

theorem registerBeforeSend_store (s : ServiceInner)
    (fs : List (CommandResponse → CommandResponse)) :
    (registerBeforeSend s fs).store = s.store := by
  induction fs generalizing s with
  | nil => rfl
  | cons f rest ih =>
      simp [registerBeforeSend] at ih ⊢
      rw [ih]
      rfl

theorem execute_with_hooks (store : MemTable)
    (fs : List (CommandResponse → CommandResponse)) (cmd : CommandRequest) :
    (Service.execute (Service.ofInner (registerBeforeSend (ServiceInner.new store) fs)) cmd).1
      = notifyMut fs (dispatch cmd store).1 := by
  unfold Service.execute Service.ofInner
  rw [registerBeforeSend_hooks, registerBeforeSend_store]
  rfl

/- ----------------------------------------------------------------
Claim theorems.
---------------------------------------------------------------- -/

/-- C1: For the MemTable backend, for every table name, key and value, and
from any starting state: after `set(table, key, value)` returns, a
`get(table, key)` on the resulting state returns `Ok(Some(value))`. -/
theorem mem_read_after_write :
    ∀ (m : MemTable) (table key : String) (v : Value),
      (MemTable.get (MemTable.set m table key v).2 table key).1
        = Except.ok (some v) := by
  intro m table key v
  rw [mem_get_val, memLookup_set_self]

/-- C2: For both backends, `set(table, key, value)` inserts or overwrites
the key and returns `Ok` of the previous value — `Some` exactly when the key
already existed, `None` otherwise — and materializes the table when it was
absent.  The MemTable conjuncts state that `set` returns the pre-state
lookup, that the new binding is readable afterwards, and that the table
exists afterwards; the SledDb conjuncts (for any well-formed engine state)
state that `set` returns the decoded previously stored value, that this
previous value is `Some` exactly when the full key was present, and that the
new binding is readable afterwards. -/
theorem set_returns_prior_value :
    ∀ (m : MemTable) (t1 k1 : String) (v1 : Value)
      (s : SledDb) (t2 k2 : String) (v2 : Value), SledWF s →
      (MemTable.set m t1 k1 v1).1 = Except.ok (memLookup m t1 k1)
    ∧ (MemTable.get (MemTable.set m t1 k1 v1).2 t1 k1).1 = Except.ok (some v1)
    ∧ (alookup (MemTable.set m t1 k1 v1).2.tables t1).isSome
    ∧ (SledDb.set s t2 k2 v2).1 = Except.ok (sledLookup s t2 k2)
    ∧ (sledLookup s t2 k2).isSome
        = (alookup s.db (SledDb.get_full_key t2 k2)).isSome
    ∧ SledDb.get (SledDb.set s t2 k2 v2).2 t2 k2 = Except.ok (some v2) := by
  intro m t1 k1 v1 s t2 k2 v2 hwf
  refine ⟨mem_set_val m t1 k1 v1, ?_, mem_set_materializes m t1 k1 v1,
    sled_set_val s t2 k2 v2 hwf, sledLookup_isSome s t2 k2 hwf,
    sled_get_after_set s t2 k2 v2⟩
  rw [mem_get_val, memLookup_set_self]

/-- Witness for C2 at concrete inputs: the empty sled state is well-formed
and the conclusion holds at table t1, key hello, value world on empty
backends. -/
theorem set_returns_prior_value_witness :
    SledWF ⟨[]⟩
  ∧ ((MemTable.set MemTable.new "t1" "hello" (Value.vstring "world")).1
        = Except.ok (memLookup MemTable.new "t1" "hello")
    ∧ (MemTable.get (MemTable.set MemTable.new "t1" "hello"
          (Value.vstring "world")).2 "t1" "hello").1
        = Except.ok (some (Value.vstring "world"))
    ∧ (alookup (MemTable.set MemTable.new "t1" "hello"
          (Value.vstring "world")).2.tables "t1").isSome
    ∧ (SledDb.set ⟨[]⟩ "t1" "hello" (Value.vstring "world")).1
        = Except.ok (sledLookup ⟨[]⟩ "t1" "hello")
    ∧ (sledLookup ⟨[]⟩ "t1" "hello").isSome
        = (alookup (SledDb.mk []).db (SledDb.get_full_key "t1" "hello")).isSome
    ∧ SledDb.get (SledDb.set ⟨[]⟩ "t1" "hello" (Value.vstring "world")).2
          "t1" "hello"
        = Except.ok (some (Value.vstring "world"))) :=
  ⟨by decide,
    set_returns_prior_value MemTable.new "t1" "hello" (Value.vstring "world")
      ⟨[]⟩ "t1" "hello" (Value.vstring "world") (by decide)⟩

/-- C3 (evaluation at the failing input): `SledDb::del` is `todo!()` in the
source and panics on any input — here at the spec's own example input
`del("t1", "hello")` on the empty engine state — instead of returning the
`Ok` value the claim requires for every backend; the MemTable backend does
satisfy the claim on the spec's example sequence: after
`set("t1","hello","world")` and `set("t1","hello","world1")`, `del` returns
`Ok(Some("world1"))` and a repeated `del` returns `Ok(None)`. -/
theorem del_contract_at_inputs :
    SledDb.del ⟨[]⟩ "t1" "hello" = PanicOr.panicked "not yet implemented"
  ∧ (MemTable.del (MemTable.set (MemTable.set MemTable.new "t1" "hello"
        (Value.vstring "world")).2 "t1" "hello" (Value.vstring "world1")).2
        "t1" "hello").1
      = Except.ok (some (Value.vstring "world1"))
  ∧ (MemTable.del (MemTable.del (MemTable.set (MemTable.set MemTable.new
        "t1" "hello" (Value.vstring "world")).2 "t1" "hello"
        (Value.vstring "world1")).2 "t1" "hello").2 "t1" "hello").1
      = Except.ok none := by
  refine ⟨rfl, rfl, rfl⟩

/-- C4 (counterexample): a `get` on a never-touched table does change the
set of existing tables — on the empty MemTable, `get("t2","x")` creates the
(empty) table t2, so the table-name list goes from empty to containing
t2. -/
theorem get_creates_table_cex :
    tableNames (MemTable.get MemTable.new "t2" "x").2 = ["t2"]
  ∧ tableNames MemTable.new = []
  ∧ tableNames (MemTable.get MemTable.new "t2" "x").2 ≠ tableNames MemTable.new := by
  refine ⟨rfl, rfl, by decide⟩

/-- C4 (amended): for the MemTable backend, `get(table, key)` returns `Ok`
of the current binding (`Some` when present, `None` when the table or key is
absent), and it changes no lookup result of any (table, key) pair — but it
does materialize the queried table (get-or-create), so the set of existing
table names may gain the queried name. -/
theorem mem_get_spec_and_frame :
    ∀ (m : MemTable) (table key : String),
      (MemTable.get m table key).1 = Except.ok (memLookup m table key)
    ∧ (∀ t' k', memLookup (MemTable.get m table key).2 t' k'
          = memLookup m t' k')
    ∧ (alookup (MemTable.get m table key).2.tables table).isSome := by
  intro m table key
  exact ⟨mem_get_val m table key,
    fun t' k' => memLookup_get_state m table key t' k',
    mem_get_materializes m table key⟩

/-- C5: the pairs yielded by an iterator obtained from `get_iter(table)` are
determined by the table's contents when `get_iter` was called: draining the
iterator after a subsequent `set` or `del` on that table yields exactly what
draining it without the mutation yields (and the mutation itself really
happened: the third conjunct reads back the value written after the
iterator was obtained). -/
theorem iter_snapshot_isolation :
    ∀ (m : MemTable) (table key : String) (v : Value),
      (iterThenSet m table key v).1 = iterNoMut m table
    ∧ (iterThenDel m table key).1 = iterNoMut m table
    ∧ (MemTable.get (iterThenSet m table key v).2 table key).1
        = Except.ok (some v) := by
  intro m table key v
  refine ⟨rfl, rfl, ?_⟩
  show (MemTable.get (MemTable.set (m.get_iter table).2 table key v).2 table key).1
      = Except.ok (some v)
  rw [mem_get_val, memLookup_set_self]

/-- C6: `Service::execute` on a request whose `request_data` is `None`
returns the invalid-command error response (status 400, message saying the
request has no data, empty values and pairs), and on a request whose payload
variant is not wired into dispatch (here `Hdel`) returns the
internal/not-implemented error response (status 500); both are ordinary
return values of a total function, never a crash. -/
theorem execute_error_paths :
    ∀ (store : MemTable) (d : Hdel),
      (Service.execute (Service.ofInner (ServiceInner.new store)) ⟨none⟩).1
        = ⟨400, "Request has no data", [], []⟩
    ∧ (Service.execute (Service.ofInner (ServiceInner.new store))
          ⟨some (RequestData.Hdel d)⟩).1
        = ⟨500, "Not implemented", [], []⟩ := by
  intro store d
  exact ⟨rfl, rfl⟩

/-- C7: the `on_before_send` hooks registered on a service are applied to
the response in registration order — executing with hooks `fs ++ [g]` gives
`g` applied to the result of executing with hooks `fs`, so each later hook
observes the earlier hooks' mutations — and when every hook overwrites the
response status, the last-registered hook's status is the one returned. -/
theorem before_send_hooks_in_order :
    ∀ (store : MemTable) (fs : List (CommandResponse → CommandResponse))
      (g : CommandResponse → CommandResponse) (cmd : CommandRequest)
      (ns : List Nat) (n : Nat),
      (Service.execute (Service.ofInner (registerBeforeSend
          (ServiceInner.new store) (fs ++ [g]))) cmd).1
        = g ((Service.execute (Service.ofInner (registerBeforeSend
            (ServiceInner.new store) fs)) cmd).1)
    ∧ ((Service.execute (Service.ofInner (registerBeforeSend
          (ServiceInner.new store)
          (ns.map setStatusHook ++ [setStatusHook n]))) cmd).1).status = n := by
  intro store fs g cmd ns n
  constructor
  · rw [execute_with_hooks, execute_with_hooks, notifyMut_append]
  · rw [execute_with_hooks, notifyMut_append]
    rfl

/-- C8: the `StorageIter` adapter's `next` yields exactly the conversion of
the wrapped iterator's next element and yields `None` exactly when the
wrapped iterator is exhausted; draining a `StorageIter` equals mapping the
conversion over the wrapped elements. -/
theorem storage_iter_contract :
    ∀ {α : Type} (toKv : α → Kvpair) (it : StorageIter α),
      StorageIter.next toKv it
        = (it.data.head?).map (fun a => (toKv a, StorageIter.new it.data.tail))
    ∧ (StorageIter.next toKv it = none ↔ it.data = [])
    ∧ StorageIter.collect toKv it = it.data.map toKv := by
  intro α toKv it
  obtain ⟨l⟩ := it
  refine ⟨?_, ?_, ?_⟩
  · cases l <;> rfl
  · cases l <;> simp [StorageIter.next]
  · exact collect_eq_map toKv l

/-- C9: for the MemTable backend, `get_all(table)` and draining
`get_iter(table)` yield the same list of pairs (hence the same multiset),
and both are exactly the table's current key/value pairs converted by
`Kvpair::new`. -/
theorem get_all_get_iter_agree :
    ∀ (m : MemTable) (table : String),
      (MemTable.get_all m table).1
        = Except.map (StorageIter.collect Kvpair.ofProd)
            (MemTable.get_iter m table).1
    ∧ (MemTable.get_all m table).1
        = Except.ok ((memSnapshot m table).map Kvpair.ofProd) := by
  intro m table
  constructor
  · show Except.ok ((m.get_or_create_table table).1.map (fun q => Kvpair.new q.1 q.2))
        = Except.map (StorageIter.collect Kvpair.ofProd)
            (Except.ok (StorageIter.new (m.get_or_create_table table).1))
    rw [Except.map, collect_eq_map]
    rfl
  · show Except.ok ((m.get_or_create_table table).1.map (fun q => Kvpair.new q.1 q.2))
        = Except.ok ((memSnapshot m table).map Kvpair.ofProd)
    rw [get_or_create_fst]
    rfl

/-- C10: for the MemTable backend, `set(table, key, value)` changes at most
the binding of `key` in `table`: for every pair (table2, key2) different in
the table or in the key, `get(table2, key2)` returns the same value before
and after the `set`. -/
theorem set_frame :
    ∀ (m : MemTable) (table key : String) (v : Value) (t2 k2 : String),
      (t2 ≠ table ∨ k2 ≠ key) →
      (MemTable.get (MemTable.set m table key v).2 t2 k2).1
        = (MemTable.get m t2 k2).1 := by
  intro m table key v t2 k2 h
  rw [mem_get_val, mem_get_val, memLookup_set_frame m table key v t2 k2 h]

/-- Witness for C10 at concrete inputs: with table t1 and distinct keys k1
and k2, the lookup of k2 is unchanged by setting k1. -/
theorem set_frame_witness :
    ((("t1" : String) ≠ "t1") ∨ (("k2" : String) ≠ "k1"))
  ∧ (MemTable.get (MemTable.set MemTable.new "t1" "k1"
        (Value.vstring "v")).2 "t1" "k2").1
      = (MemTable.get MemTable.new "t1" "k2").1 :=
  ⟨Or.inr (by decide),
    set_frame MemTable.new "t1" "k1" (Value.vstring "v") "t1" "k2"
      (Or.inr (by decide))⟩

end KvServer
